import Mathlib

/-!
Verification of the hyper-evm-sync repository (src/cli.rs, src/evm_map.rs):
a shallow embedding of the synthetic-system-address derivation, the token
map construction, the `run_from_state` initialization sequence, the reader
window loop, the `next-block-number` command dispatch, and the end-of-run
join logic, together with theorems settling the specification claims.
-/

namespace HyperEvmSync

/-- Process-wide constant from cli.rs: `const READ_LIMIT: u64 = 100000;`. -/
def READ_LIMIT : Nat := 100000

/-- Process-wide constant from cli.rs:
`const TESTNET_BLOCK_THRESHOLD: u64 = 26800000;`. -/
def TESTNET_BLOCK_THRESHOLD : Nat := 26800000

/-- Process-wide constant from cli.rs: `const CHUNK_SIZE: u64 = 1000;`. -/
def CHUNK_SIZE : Nat := 1000

/-- An address is a sequence of bytes (the source's `Address` is 20 bytes). -/
abbrev Addr := List Nat

/-- Little-endian byte expansion of a natural number to `k` bytes, the
primitive underlying Rust's `u64::to_le_bytes`. -/
def toLeBytes : Nat → Nat → List Nat
  | 0, _ => []
  | k + 1, n => n % 256 :: toLeBytes k (n / 256)

/-- Rust's `u64::to_be_bytes`: the 8-byte big-endian encoding of a `u64`. -/
def toBeBytes8 (n : Nat) : List Nat := (toLeBytes 8 n).reverse

/-- The synthetic system address built in `erc20_contract_to_system_address`
(evm_map.rs lines 43-46): a 20-byte array, all zero, then byte 0 set to
`0x20` and bytes 12..20 overwritten with `index.to_be_bytes()`. -/
def systemAddress (index : Nat) : Addr :=
  0x20 :: List.replicate 11 0 ++ toBeBytes8 index

/-- A spot token from the metadata endpoint (evm_map.rs `SpotToken`):
an index and an optional bridging ERC20 contract address. -/
structure SpotToken where
  index : Nat
  evmContract : Option Addr
deriving DecidableEq

/-- One iteration of the map-building loop (evm_map.rs lines 41-50):
a token carrying a contract address inserts (replacing any previous entry)
the mapping from that contract address to its synthetic system address;
a token without one leaves the map unchanged. -/
def insertToken (m : Addr → Option Addr) (t : SpotToken) : Addr → Option Addr :=
  match t.evmContract with
  | some c => fun a => if a = c then some (systemAddress t.index) else m a
  | none => m

/-- The map built by `erc20_contract_to_system_address`
(evm_map.rs lines 40-51): fold over the token list in iteration order,
starting from the empty map. -/
def erc20ContractToSystemAddress (tokens : List SpotToken) : Addr → Option Addr :=
  tokens.foldl insertToken (fun _ => none)

/-- The last token in the list whose bridging contract address is `c`. -/
def lastTokenWith (tokens : List SpotToken) (c : Addr) : Option SpotToken :=
  (tokens.filter (fun t => t.evmContract = some c)).getLast?

/-- Big-endian decoding of a byte list. -/
def decodeBe (l : List Nat) : Nat := l.foldl (fun acc b => acc * 256 + b) 0

/-- Rust checked `u64` subtraction: fails on underflow. -/
def u64CheckedSub (a b : Nat) : Option Nat :=
  if b ≤ a then some (a - b) else none

/-- Rust checked `u64` addition: fails on overflow. -/
def u64CheckedAdd (a b : Nat) : Option Nat :=
  if a + b < 2 ^ 64 then some (a + b) else none

/-- The reader loop of `run_from_state` (cli.rs lines 165-173), as the
list of read windows `(cur_block, last_block_in_chunk)` it sends, with
explicit fuel (the loop advances by at least one block per iteration when
the read limit is positive, so fuel `end_block + 1 - cur_block` suffices).
All loop arithmetic is the source's `u64` arithmetic under checked
semantics: `last_block_in_chunk = end_block.min(cur_block + READ_LIMIT - 1)`
and the advance `cur_block = last_block_in_chunk + 1`; `none` models the
debug-mode arithmetic panic on overflow or underflow. -/
def readerWindowsFuel : Nat → Nat → Nat → Nat → Option (List (Nat × Nat))
  | 0, _, _, _ => some []
  | fuel + 1, L, cur, endB =>
    if cur ≤ endB then
      match u64CheckedAdd cur L with
      | none => none
      | some s =>
        match u64CheckedSub s 1 with
        | none => none
        | some sm1 =>
          match u64CheckedAdd (min endB sm1) 1 with
          | none => none
          | some next =>
            match readerWindowsFuel fuel L next endB with
            | none => none
            | some ws => some ((cur, min endB sm1) :: ws)
    else some []

/-- The outcome of the reader loop of `run_from_state` running from
`startB` to `endB` with read limit `L`: the window list it sends, or
`none` when its `u64` arithmetic panics. -/
def readerWindows (L startB endB : Nat) : Option (List (Nat × Nat)) :=
  readerWindowsFuel (endB + 1 - startB) L startB endB

/-- The window list the reader loop produces on inputs where its `u64`
arithmetic cannot overflow, over unbounded naturals (proof-side
description, compared with `readerWindowsFuel` in the C2 theorem). -/
def idealWindowsFuel : Nat → Nat → Nat → Nat → List (Nat × Nat)
  | 0, _, _, _ => []
  | fuel + 1, L, cur, endB =>
    if cur ≤ endB then
      (cur, min endB (cur + L - 1)) ::
        idealWindowsFuel fuel L (min endB (cur + L - 1) + 1) endB
    else []

/-- The overflow-free window list from `startB` to `endB` with read
limit `L`. -/
def idealWindows (L startB endB : Nat) : List (Nat × Nat) :=
  idealWindowsFuel (endB + 1 - startB) L startB endB

/-- The two networks (cli.rs `Chain`). -/
inductive Chain
  | Mainnet
  | Testnet
deriving DecidableEq

/-- An externally observable input/output action of the CLI: the metadata
fetch, a state-file read, a block-range read, or a snapshot write. -/
inductive Effect
  | fetchMeta (chain : Chain)
  | readAbciState (fln : String)
  | readEvmState (fln : String)
  | readBlocks (first last : Nat)
  | writeSnapshot (blockNumber : Nat)
deriving DecidableEq

/-- Error outcomes of a command (the code returns `anyhow::Result`; the
variants follow the spec's error taxonomy). -/
inductive RunError
  | networkError
  | deserializationError
  | configError (msg : String)
deriving DecidableEq

/-- The threshold check of `run_from_state` (cli.rs lines 132-136): on
Testnet, a start block below `TESTNET_BLOCK_THRESHOLD` is rejected. -/
def testnetThresholdGuard (chain : Chain) (startBlock : Nat) : Option RunError :=
  match chain with
  | Chain.Testnet =>
      if startBlock < TESTNET_BLOCK_THRESHOLD then
        some (RunError.configError "Testnet must be run after 26800000")
      else none
  | Chain.Mainnet => none

/-- The initialization sequence of `run_from_state` (cli.rs lines
119-136): first the metadata fetch, then resolution of the start state
(snapshot read or genesis, rejecting Testnet without a state file), then
the Testnet threshold guard. Returns the I/O actions performed in order
and either an error or the resolved `(start_block, state)` pair. The
external operations are parameters: `fetch` yields the fetched token list
or a transport/parse failure, `readAbci`/`readEvm` yield the decoded
`(next_block_number, state)` pair or a decode failure. -/
def runFromStateInit (S : Type) (genesis : S)
    (fetch : Chain → Except Unit (List SpotToken))
    (readAbci readEvm : String → Except Unit (Nat × S))
    (chain : Chain) (stateFln : Option String) (isAbci : Bool) :
    List Effect × Except RunError (Nat × S) :=
  match fetch chain with
  | Except.error _ =>
      ([Effect.fetchMeta chain], Except.error RunError.networkError)
  | Except.ok _tokens =>
      match stateFln, chain with
      | none, Chain.Testnet =>
          ([Effect.fetchMeta chain],
            Except.error (RunError.configError "Testnet must start from a snapshot"))
      | none, Chain.Mainnet =>
          match testnetThresholdGuard Chain.Mainnet 1 with
          | some e => ([Effect.fetchMeta chain], Except.error e)
          | none => ([Effect.fetchMeta chain], Except.ok (1, genesis))
      | some fln, _ =>
          match (if isAbci then (Effect.readAbciState fln, readAbci fln)
                 else (Effect.readEvmState fln, readEvm fln)) with
          | (ev, Except.error _) =>
              ([Effect.fetchMeta chain, ev],
                Except.error RunError.deserializationError)
          | (ev, Except.ok (startBlock, st)) =>
              match testnetThresholdGuard chain startBlock with
              | some e => ([Effect.fetchMeta chain, ev], Except.error e)
              | none => ([Effect.fetchMeta chain, ev], Except.ok (startBlock, st))

/-- The progress-bar length expression `end_block - start_block + 1`
(cli.rs line 139) under checked `u64` arithmetic; `none` models the
debug-mode arithmetic panic. -/
def progressLen (startBlock endBlock : Nat) : Option Nat :=
  (u64CheckedSub endBlock startBlock).bind fun d => u64CheckedAdd d 1

/-- The `next-block-number` command (cli.rs lines 96-104): read and print
the cursor from the abci state file if given, else from the evm state
file if given, else fail. Returns the reads performed and either an error
or the printed cursor. -/
def nextBlockNumber (readAbci readEvm : String → Except Unit Nat)
    (abciStateFln evmStateFln : Option String) :
    List Effect × Except RunError Nat :=
  match abciStateFln with
  | some fln =>
      ([Effect.readAbciState fln],
        match readAbci fln with
        | Except.ok n => Except.ok n
        | Except.error _ => Except.error RunError.deserializationError)
  | none =>
      match evmStateFln with
      | some fln =>
          ([Effect.readEvmState fln],
            match readEvm fln with
            | Except.ok n => Except.ok n
            | Except.error _ => Except.error RunError.deserializationError)
      | none => ([], Except.error (RunError.configError "No file specified"))

/-- The end of `run_from_state` (cli.rs lines 175-182): both pipeline
tasks are joined, each failed task's error is reported to stderr, and the
function returns success regardless of either task's outcome. -/
def joinPipeline (processorRes readerRes : Except String Unit) :
    List String × Except RunError Unit :=
  ((match processorRes with
    | Except.error e => ["Processor failed: " ++ e]
    | Except.ok _ => []) ++
   (match readerRes with
    | Except.error e => ["Reader failed: " ++ e]
    | Except.ok _ => []),
   Except.ok ())

theorem toLeBytes_length (k n : Nat) : (toLeBytes k n).length = k := by
  induction k generalizing n with
  | zero => rfl
  | succ k ih => simp [toLeBytes, ih]

theorem toLeBytes_lt (k : Nat) :
    ∀ n : Nat, ∀ b ∈ toLeBytes k n, b < 256 := by
  induction k with
  | zero => intro n b hb; simp [toLeBytes] at hb
  | succ k ih =>
    intro n b hb
    simp only [toLeBytes, List.mem_cons] at hb
    rcases hb with h | h
    · omega
    · exact ih _ _ h

theorem decodeBe_toLeBytes_reverse (k : Nat) :
    ∀ n : Nat, decodeBe (toLeBytes k n).reverse = n % 256 ^ k := by
  induction k with
  | zero => intro n; simp [toLeBytes, decodeBe, Nat.mod_one]
  | succ k ih =>
    intro n
    have hmod : n % 256 ^ (k + 1) = n % 256 + 256 * (n / 256 % 256 ^ k) := by
      rw [pow_succ, mul_comm (256 ^ k) 256, Nat.mod_mul]
    simp only [toLeBytes, List.reverse_cons, decodeBe, List.foldl_append,
      List.foldl_cons, List.foldl_nil]
    have := ih (n / 256)
    simp only [decodeBe] at this
    rw [this]
    omega

theorem decodeBe_toBeBytes8 (n : Nat) (hn : n < 2 ^ 64) :
    decodeBe (toBeBytes8 n) = n := by
  have h : decodeBe (toBeBytes8 n) = n % 256 ^ 8 := decodeBe_toLeBytes_reverse 8 n
  rw [h, Nat.mod_eq_of_lt]
  calc n < 2 ^ 64 := hn
    _ = 256 ^ 8 := by norm_num

theorem systemAddress_eq (i : Nat) :
    systemAddress i = [0x20] ++ List.replicate 11 0 ++ toBeBytes8 i := rfl

theorem systemAddress_drop12 (i : Nat) :
    (systemAddress i).drop 12 = toBeBytes8 i := by
  simp [systemAddress, List.replicate]

/-- C1: for every token index `i` (a `u64`, so `i < 2^64`), the synthetic
system address is 20 bytes long, has byte 0 equal to `0x20`, bytes 1-11
equal to zero, and bytes 12-19 forming the 8-byte big-endian encoding of
`i` (8 bytes, each below 256, decoding big-endian back to `i`). -/
theorem c1_system_address_layout (i : Nat) (hi : i < 2 ^ 64) :
    (systemAddress i).length = 20 ∧
    (systemAddress i).take 1 = [0x20] ∧
    ((systemAddress i).drop 1).take 11 = List.replicate 11 0 ∧
    ((systemAddress i).drop 12).length = 8 ∧
    (∀ b ∈ (systemAddress i).drop 12, b < 256) ∧
    decodeBe ((systemAddress i).drop 12) = i := by
  refine ⟨?_, ?_, ?_, ?_, ?_, ?_⟩
  · simp [systemAddress, toBeBytes8, toLeBytes_length]
  · rfl
  · simp [systemAddress, List.replicate]
  · rw [systemAddress_drop12]; simp [toBeBytes8, toLeBytes_length]
  · rw [systemAddress_drop12]
    intro b hb
    exact toLeBytes_lt 8 i b (List.mem_reverse.mp hb)
  · rw [systemAddress_drop12]
    exact decodeBe_toBeBytes8 i hi

/-- Witness for C1 at index 5: the address is the spec's example
`0x2000000000000000000000000000000000000005`. -/
theorem c1_system_address_layout_witness :
    (5 : Nat) < 2 ^ 64 ∧
    (systemAddress 5).length = 20 ∧
    decodeBe ((systemAddress 5).drop 12) = 5 ∧
    systemAddress 5 =
      [0x20, 0, 0, 0, 0, 0, 0, 0, 0, 0, 0, 0, 0, 0, 0, 0, 0, 0, 0, 5] :=
  ⟨by decide, (c1_system_address_layout 5 (by decide)).1,
    (c1_system_address_layout 5 (by decide)).2.2.2.2.2, by decide⟩

/-- C8: the synthetic-address derivation is injective in the token index:
distinct `u64` indices give distinct synthetic system addresses. -/
theorem c8_system_address_injective (i j : Nat)
    (hi : i < 2 ^ 64) (hj : j < 2 ^ 64) (hne : i ≠ j) :
    systemAddress i ≠ systemAddress j := by
  intro h
  apply hne
  have hdrop : toBeBytes8 i = toBeBytes8 j := by
    rw [← systemAddress_drop12, ← systemAddress_drop12, h]
  have := congrArg decodeBe hdrop
  rw [decodeBe_toBeBytes8 i hi, decodeBe_toBeBytes8 j hj] at this
  exact this

/-- Witness for C8 at indices 0 and 1. -/
theorem c8_system_address_injective_witness :
    (0 : Nat) < 2 ^ 64 ∧ (1 : Nat) < 2 ^ 64 ∧ (0 : Nat) ≠ 1 ∧
    systemAddress 0 ≠ systemAddress 1 :=
  ⟨by decide, by decide, by decide,
    c8_system_address_injective 0 1 (by decide) (by decide) (by decide)⟩

theorem foldl_insertToken_lookup (tokens : List SpotToken) :
    ∀ (m : Addr → Option Addr) (c : Addr),
      tokens.foldl insertToken m c =
        match lastTokenWith tokens c with
        | some t => some (systemAddress t.index)
        | none => m c := by
  induction tokens with
  | nil => intro m c; simp [lastTokenWith]
  | cons t ts ih =>
    intro m c
    rw [List.foldl_cons, ih]
    rcases hlast : lastTokenWith ts c with _ | t'
    · have hfil : ts.filter (fun u => u.evmContract = some c) = [] := by
        simpa [lastTokenWith, List.getLast?_eq_none_iff] using hlast
      rcases hec : t.evmContract with _ | c'
      · simp [lastTokenWith, List.filter_cons, hec, hfil, insertToken]
      · by_cases hcc : c' = c
        · subst hcc
          simp [lastTokenWith, List.filter_cons, hec, hfil, insertToken]
        · simp [lastTokenWith, List.filter_cons, hec, hfil, insertToken, hcc,
            Ne.symm hcc]
    · have hmem : t' ∈ (ts.filter (fun u => u.evmContract = some c)).getLast? :=
        Option.mem_def.mpr hlast
      have hcons : lastTokenWith (t :: ts) c = some t' := by
        rw [lastTokenWith, List.filter_cons]
        split
        · exact Option.mem_def.mp (List.mem_getLast?_cons hmem)
        · exact hlast
      rw [hcons]

/-- C5: the token map contains exactly the contract addresses of tokens
that carry one (a lookup is `none` iff no token carries that contract
address), and a lookup returns the synthetic address of the token iterated
last among those carrying that contract address (last-token-wins). -/
theorem c5_token_map_last_wins (tokens : List SpotToken) (c : Addr) :
    erc20ContractToSystemAddress tokens c =
      (lastTokenWith tokens c).map (fun t => systemAddress t.index) ∧
    (erc20ContractToSystemAddress tokens c = none ↔
      ∀ t ∈ tokens, t.evmContract ≠ some c) := by
  have hmain : erc20ContractToSystemAddress tokens c =
      (lastTokenWith tokens c).map (fun t => systemAddress t.index) := by
    rw [erc20ContractToSystemAddress, foldl_insertToken_lookup]
    rcases lastTokenWith tokens c with _ | t <;> rfl
  refine ⟨hmain, ?_⟩
  rw [hmain]
  constructor
  · intro hnone t ht hc
    rcases hlast : lastTokenWith tokens c with _ | t'
    · have : (tokens.filter (fun u => u.evmContract = some c)) = [] := by
        simpa [lastTokenWith, List.getLast?_eq_none_iff] using hlast
      have : t ∈ tokens.filter (fun u => u.evmContract = some c) :=
        List.mem_filter.mpr ⟨ht, by simp [hc]⟩
      simp_all
    · rw [hlast] at hnone
      simp at hnone
  · intro hall
    rcases hlast : lastTokenWith tokens c with _ | t'
    · rfl
    · exfalso
      have hmem : t' ∈ tokens.filter (fun u => u.evmContract = some c) := by
        have h1 : t' ∈ (tokens.filter (fun u => u.evmContract = some c)).getLast? :=
          Option.mem_def.mpr hlast
        obtain ⟨h2, h3⟩ := List.mem_getLast?_eq_getLast h1
        rw [h3]
        exact List.getLast_mem h2
      have := List.mem_filter.mp hmem
      exact hall t' this.1 (by simpa using this.2)

/-- Witness for C5 on a concrete token list: the duplicate contract
address `[1]` resolves to the last token's synthetic address, and the
address `[2]`, carried by no token, is absent. -/
theorem c5_token_map_last_wins_witness :
    erc20ContractToSystemAddress
        [⟨1, some [1]⟩, ⟨2, none⟩, ⟨3, some [1]⟩] [1] =
      some (systemAddress 3) ∧
    erc20ContractToSystemAddress
        [⟨1, some [1]⟩, ⟨2, none⟩, ⟨3, some [1]⟩] [2] = none :=
  ⟨by rw [(c5_token_map_last_wins [⟨1, some [1]⟩, ⟨2, none⟩, ⟨3, some [1]⟩] [1]).1]; rfl,
    (c5_token_map_last_wins [⟨1, some [1]⟩, ⟨2, none⟩, ⟨3, some [1]⟩] [2]).2.mpr
      (by decide)⟩

theorem idealWindowsFuel_spec (L : Nat) (hL : 0 < L) (endB : Nat) :
    ∀ fuel cur, endB + 1 - cur ≤ fuel →
      ((idealWindowsFuel fuel L cur endB).flatMap
          (fun w => List.range' w.1 (w.2 + 1 - w.1)) =
        List.range' cur (endB + 1 - cur)) ∧
      List.Chain' (fun a b => a.2 + 1 = b.1)
        (idealWindowsFuel fuel L cur endB) ∧
      (∀ w ∈ idealWindowsFuel fuel L cur endB,
          w.1 ≤ w.2 ∧ w.2 ≤ endB ∧ w.2 + 1 - w.1 ≤ L ∧
          w.2 = min endB (w.1 + L - 1)) ∧
      (cur ≤ endB →
        (idealWindowsFuel fuel L cur endB).head? =
            some (cur, min endB (cur + L - 1)) ∧
        ((idealWindowsFuel fuel L cur endB).getLast?).map Prod.snd =
            some endB) ∧
      (endB < cur → idealWindowsFuel fuel L cur endB = []) := by
  intro fuel
  induction fuel with
  | zero =>
    intro cur hfuel
    have hgt : endB < cur := by omega
    refine ⟨?_, ?_, ?_, ?_, ?_⟩
    · have : endB + 1 - cur = 0 := by omega
      simp [idealWindowsFuel, this]
    · simp [idealWindowsFuel]
    · simp [idealWindowsFuel]
    · intro hle; omega
    · intro _; rfl
  | succ fuel ih =>
    intro cur hfuel
    by_cases hcur : cur ≤ endB
    · have hm1 : cur ≤ min endB (cur + L - 1) := by omega
      have hm2 : min endB (cur + L - 1) ≤ endB := Nat.min_le_left _ _
      have hm3 : min endB (cur + L - 1) + 1 - cur ≤ L := by omega
      have hrec : endB + 1 - (min endB (cur + L - 1) + 1) ≤ fuel := by omega
      obtain ⟨ihA, ihB, ihC, ihD, ihE⟩ := ih (min endB (cur + L - 1) + 1) hrec
      have hunf : idealWindowsFuel (fuel + 1) L cur endB =
          (cur, min endB (cur + L - 1)) ::
            idealWindowsFuel fuel L (min endB (cur + L - 1) + 1) endB := by
        simp [idealWindowsFuel, hcur]
      refine ⟨?_, ?_, ?_, ?_, ?_⟩
      · rw [hunf, List.flatMap_cons, ihA]
        dsimp only
        obtain ⟨k, hk⟩ : ∃ k, min endB (cur + L - 1) + 1 = cur + k :=
          ⟨min endB (cur + L - 1) + 1 - cur, by omega⟩
        rw [hk, Nat.add_sub_cancel_left, List.range'_append_1]
        congr 1
        omega
      · rw [hunf]
        rw [List.chain'_cons']
        constructor
        · intro b hb
          by_cases hnext : min endB (cur + L - 1) + 1 ≤ endB
          · obtain ⟨hhead, _⟩ := ihD hnext
            rw [hhead] at hb
            simp only [Option.mem_def, Option.some.injEq] at hb
            rw [← hb]
          · have : idealWindowsFuel fuel L (min endB (cur + L - 1) + 1) endB
                = [] := ihE (by omega)
            rw [this] at hb
            simp at hb
        · exact ihB
      · rw [hunf]
        intro w hw
        rcases List.mem_cons.mp hw with h | h
        · subst h
          exact ⟨hm1, hm2, hm3, rfl⟩
        · exact ihC w h
      · intro _
        rw [hunf]
        constructor
        · rfl
        · by_cases hnext : min endB (cur + L - 1) + 1 ≤ endB
          · obtain ⟨_, hlast⟩ := ihD hnext
            rcases hrest : (idealWindowsFuel fuel L
                (min endB (cur + L - 1) + 1) endB).getLast? with _ | w
            · rw [hrest] at hlast; simp at hlast
            · have hmem : w ∈ ((cur, min endB (cur + L - 1)) ::
                  idealWindowsFuel fuel L
                    (min endB (cur + L - 1) + 1) endB).getLast? :=
                List.mem_getLast?_cons (Option.mem_def.mpr hrest)
              rw [Option.mem_def.mp hmem]
              rw [hrest] at hlast
              simpa using hlast
          · have hnil : idealWindowsFuel fuel L
                (min endB (cur + L - 1) + 1) endB = [] := ihE (by omega)
            rw [hnil]
            simp
            omega
      · intro hgt; omega
    · have hnil : idealWindowsFuel (fuel + 1) L cur endB = [] := by
        simp [idealWindowsFuel, hcur]
      refine ⟨?_, ?_, ?_, ?_, ?_⟩
      · rw [hnil]
        have h0 : endB + 1 - cur = 0 := by omega
        simp [h0]
      · rw [hnil]; exact List.chain'_nil
      · rw [hnil]; intro w hw; simp at hw
      · intro hle; omega
      · intro _; exact hnil

theorem readerWindowsFuel_eq_ideal (L : Nat) (hL : 0 < L) (endB : Nat)
    (hov : endB + L < 2 ^ 64) :
    ∀ fuel cur, readerWindowsFuel fuel L cur endB =
      some (idealWindowsFuel fuel L cur endB) := by
  intro fuel
  induction fuel with
  | zero => intro cur; rfl
  | succ fuel ih =>
    intro cur
    by_cases hcur : cur ≤ endB
    · have h1 : cur + L < 2 ^ 64 := by omega
      have hadd : u64CheckedAdd cur L = some (cur + L) := by
        simp only [u64CheckedAdd]
        split
        · rfl
        · omega
      have hsub : u64CheckedSub (cur + L) 1 = some (cur + L - 1) := by
        simp only [u64CheckedSub]
        split
        · rfl
        · omega
      have h2 : min endB (cur + L - 1) + 1 < 2 ^ 64 := by omega
      have hnext : u64CheckedAdd (min endB (cur + L - 1)) 1 =
          some (min endB (cur + L - 1) + 1) := by
        simp only [u64CheckedAdd]
        split
        · rfl
        · omega
      simp only [readerWindowsFuel, idealWindowsFuel, hcur, if_true,
        hadd, hsub, hnext, ih]
    · simp only [readerWindowsFuel, idealWindowsFuel, hcur, if_false]

/-- C2 counterexample: the claim's universal quantifier covers
`start_block = end_block = 2^64 - 1` (valid `u64` values with
`start_block ≤ end_block`), but there the loop's first window computation
`cur_block + READ_LIMIT - 1` overflows `u64` — the loop panics under
checked arithmetic instead of sending the asserted partition. -/
theorem c2_counterexample :
    (2 ^ 64 - 1 : Nat) ≤ 2 ^ 64 - 1 ∧ 0 < READ_LIMIT ∧
    readerWindows READ_LIMIT (2 ^ 64 - 1) (2 ^ 64 - 1) = none :=
  ⟨Nat.le_refl _, by decide, by decide⟩

/-- C2 amended: for `start_block ≤ end_block`, positive read limit `L`,
and `end_block + L < 2^64` (so the loop's `u64` window arithmetic cannot
overflow; with `READ_LIMIT = 100000` this excludes only `end_block` within
`READ_LIMIT` of `u64::MAX`), the reader loop panics nowhere and sends the
window list `idealWindows`: those windows partition
`[start_block, end_block]` (their concatenation in order is exactly that
range), are contiguous and strictly increasing (each window's start is its
predecessor's end plus 1), each window is `[cur, min end_block (cur+L-1)]`
and spans at most `L` block numbers, the first window starts at
`start_block`, and the loop terminates exactly after the window containing
`end_block` (the last window ends at `end_block`, and every window ends at
or before it). -/
theorem c2_reader_windows (L startB endB : Nat) (hL : 0 < L)
    (hse : startB ≤ endB) (hov : endB + L < 2 ^ 64) :
    readerWindows L startB endB = some (idealWindows L startB endB) ∧
    ((idealWindows L startB endB).flatMap
        (fun w => List.range' w.1 (w.2 + 1 - w.1)) =
      List.range' startB (endB + 1 - startB)) ∧
    List.Chain' (fun a b => a.2 + 1 = b.1) (idealWindows L startB endB) ∧
    (∀ w ∈ idealWindows L startB endB,
        w.1 ≤ w.2 ∧ w.2 ≤ endB ∧ w.2 + 1 - w.1 ≤ L ∧
        w.2 = min endB (w.1 + L - 1)) ∧
    (idealWindows L startB endB).head? =
        some (startB, min endB (startB + L - 1)) ∧
    ((idealWindows L startB endB).getLast?).map Prod.snd = some endB := by
  obtain ⟨hA, hB, hC, hD, _⟩ :=
    idealWindowsFuel_spec L hL endB (endB + 1 - startB) startB (Nat.le_refl _)
  exact ⟨readerWindowsFuel_eq_ideal L hL endB hov (endB + 1 - startB) startB,
    hA, hB, hC, (hD hse).1, (hD hse).2⟩

/-- Witness for the amended C2 with read limit 3 on the range `[1, 7]`:
the loop sends exactly the windows `[(1,3), (4,6), (7,7)]`. -/
theorem c2_reader_windows_witness :
    (0 : Nat) < 3 ∧ (1 : Nat) ≤ 7 ∧ (7 : Nat) + 3 < 2 ^ 64 ∧
    readerWindows 3 1 7 = some [(1, 3), (4, 6), (7, 7)] ∧
    ((idealWindows 3 1 7).flatMap
        (fun w => List.range' w.1 (w.2 + 1 - w.1)) =
      List.range' 1 7) :=
  ⟨by decide, by decide, by decide,
    by
      rw [(c2_reader_windows 3 1 7 (by decide) (by decide) (by decide)).1]
      decide,
    (c2_reader_windows 3 1 7 (by decide) (by decide) (by decide)).2.1⟩

theorem runFromStateInit_some_eq (S : Type) (genesis : S)
    (fetch : Chain → Except Unit (List SpotToken))
    (readAbci readEvm : String → Except Unit (Nat × S))
    (chain : Chain) (fln : String) (isAbci : Bool)
    (toks : List SpotToken) (startB : Nat) (st : S)
    (hf : fetch chain = Except.ok toks)
    (hr : (if isAbci then readAbci fln else readEvm fln) =
      Except.ok (startB, st)) :
    runFromStateInit S genesis fetch readAbci readEvm chain (some fln) isAbci =
      ([Effect.fetchMeta chain,
        if isAbci then Effect.readAbciState fln else Effect.readEvmState fln],
        match testnetThresholdGuard chain startB with
        | some e => Except.error e
        | none => Except.ok (startB, st)) := by
  cases isAbci with
  | false =>
    have hr' : readEvm fln = Except.ok (startB, st) := hr
    cases hg : testnetThresholdGuard chain startB <;>
      simp [runFromStateInit, hf, hr', hg]
  | true =>
    have hr' : readAbci fln = Except.ok (startB, st) := hr
    cases hg : testnetThresholdGuard chain startB <;>
      simp [runFromStateInit, hf, hr', hg]

/-- C3 counterexample: invoking sync-from-state on Testnet with no state
file does fail with a ConfigError, but only after the metadata-endpoint
fetch was performed (the effect trace contains the fetch), and when the
fetch itself fails the run errors with a NetworkError rather than a
ConfigError — so the failure does not precede all I/O. -/
theorem c3_counterexample :
    (runFromStateInit Unit () (fun _ => Except.ok [])
        (fun _ => Except.ok (1, ())) (fun _ => Except.ok (1, ()))
        Chain.Testnet none true) =
      ([Effect.fetchMeta Chain.Testnet],
        Except.error
          (RunError.configError "Testnet must start from a snapshot")) ∧
    Effect.fetchMeta Chain.Testnet ∈
      (runFromStateInit Unit () (fun _ => Except.ok [])
        (fun _ => Except.ok (1, ())) (fun _ => Except.ok (1, ()))
        Chain.Testnet none true).1 ∧
    (runFromStateInit Unit () (fun _ => Except.error ())
        (fun _ => Except.ok (1, ())) (fun _ => Except.ok (1, ()))
        Chain.Testnet none true).2 = Except.error RunError.networkError :=
  ⟨rfl, by decide, rfl⟩

/-- C3 amended: a sync-from-state run on Testnet with no state file fails
with a ConfigError provided the metadata fetch succeeded (a fetch failure
yields a NetworkError first), and that failure happens after the
metadata-endpoint fetch but before any state-file, block-storage or
snapshot-storage access: the effect trace is exactly the fetch. -/
theorem c3_testnet_requires_snapshot (S : Type) (genesis : S)
    (fetch : Chain → Except Unit (List SpotToken))
    (readAbci readEvm : String → Except Unit (Nat × S))
    (isAbci : Bool) (toks : List SpotToken)
    (hf : fetch Chain.Testnet = Except.ok toks) :
    runFromStateInit S genesis fetch readAbci readEvm
        Chain.Testnet none isAbci =
      ([Effect.fetchMeta Chain.Testnet],
        Except.error
          (RunError.configError "Testnet must start from a snapshot")) := by
  simp [runFromStateInit, hf]

/-- Witness for the amended C3 with concrete oracles. -/
theorem c3_testnet_requires_snapshot_witness :
    runFromStateInit Unit () (fun _ => Except.ok [])
        (fun _ => Except.ok (1, ())) (fun _ => Except.ok (1, ()))
        Chain.Testnet none false =
      ([Effect.fetchMeta Chain.Testnet],
        Except.error
          (RunError.configError "Testnet must start from a snapshot")) :=
  c3_testnet_requires_snapshot Unit () _ _ _ false [] rfl

/-- C4 counterexample: supplying both file arguments to next-block-number
does not fail with a ConfigError — the command reads the abci state file
and succeeds. -/
theorem c4_counterexample :
    nextBlockNumber (fun _ => Except.ok 7) (fun _ => Except.ok 9)
        (some "abci.rmp") (some "evm.rmp") =
      ([Effect.readAbciState "abci.rmp"], Except.ok 7) := rfl

/-- C4 amended: next-block-number fails with the ConfigError exactly when
neither file argument is given; supplying both is accepted (the abci file
takes precedence). -/
theorem c4_requires_some_file (readAbci readEvm : String → Except Unit Nat)
    (abciStateFln evmStateFln : Option String) :
    (nextBlockNumber readAbci readEvm abciStateFln evmStateFln).2 =
        Except.error (RunError.configError "No file specified") ↔
      abciStateFln = none ∧ evmStateFln = none := by
  cases abciStateFln with
  | some fln =>
    simp only [nextBlockNumber]
    cases readAbci fln <;> simp
  | none =>
    cases evmStateFln with
    | some fln =>
      simp only [nextBlockNumber]
      cases readEvm fln <;> simp
    | none => simp [nextBlockNumber]

/-- C6: a Testnet sync-from-state run whose resolved start block (the
snapshot's cursor) is strictly below `TESTNET_BLOCK_THRESHOLD = 26800000`
fails with a ConfigError; at or above the threshold the run passes this
guard and resolves the start state. -/
theorem c6_testnet_threshold (S : Type) (genesis : S)
    (fetch : Chain → Except Unit (List SpotToken))
    (readAbci readEvm : String → Except Unit (Nat × S))
    (fln : String) (isAbci : Bool) (toks : List SpotToken)
    (startB : Nat) (st : S)
    (hf : fetch Chain.Testnet = Except.ok toks)
    (hr : (if isAbci then readAbci fln else readEvm fln) =
      Except.ok (startB, st)) :
    (startB < TESTNET_BLOCK_THRESHOLD →
      (runFromStateInit S genesis fetch readAbci readEvm
          Chain.Testnet (some fln) isAbci).2 =
        Except.error
          (RunError.configError "Testnet must be run after 26800000")) ∧
    (TESTNET_BLOCK_THRESHOLD ≤ startB →
      (runFromStateInit S genesis fetch readAbci readEvm
          Chain.Testnet (some fln) isAbci).2 =
        Except.ok (startB, st)) := by
  rw [runFromStateInit_some_eq S genesis fetch readAbci readEvm
      Chain.Testnet fln isAbci toks startB st hf hr]
  constructor
  · intro hlt
    simp [testnetThresholdGuard, hlt]
  · intro hge
    simp [testnetThresholdGuard, Nat.not_lt.mpr hge]

/-- Witness for C6: a cursor one below the threshold is rejected. -/
theorem c6_testnet_threshold_witness :
    (26799999 : Nat) < TESTNET_BLOCK_THRESHOLD ∧
    (runFromStateInit Unit () (fun _ => Except.ok [])
        (fun _ => Except.ok (26799999, ())) (fun _ => Except.ok (26799999, ()))
        Chain.Testnet (some "state.rmp") true).2 =
      Except.error
        (RunError.configError "Testnet must be run after 26800000") :=
  ⟨by decide,
    (c6_testnet_threshold Unit () (fun _ => Except.ok [])
        (fun _ => Except.ok (26799999, ())) (fun _ => Except.ok (26799999, ()))
        "state.rmp" true [] 26799999 () rfl rfl).1 (by decide)⟩

/-- C7: at the end of a run both pipeline task results are consumed by the
join; a failure in either task is reported with its cause on the error
log, neither failure is propagated — the run still returns success — and
when both tasks finish cleanly nothing is reported. -/
theorem c7_join_partial_failure (processorRes readerRes : Except String Unit) :
    (joinPipeline processorRes readerRes).2 = Except.ok () ∧
    (∀ e, processorRes = Except.error e →
      ("Processor failed: " ++ e) ∈ (joinPipeline processorRes readerRes).1) ∧
    (∀ e, readerRes = Except.error e →
      ("Reader failed: " ++ e) ∈ (joinPipeline processorRes readerRes).1) ∧
    (processorRes = Except.ok () → readerRes = Except.ok () →
      (joinPipeline processorRes readerRes).1 = []) := by
  cases processorRes <;> cases readerRes <;> simp [joinPipeline]

/-- Witness for C7: a failed processor next to a clean reader is reported
and the run still returns success. -/
theorem c7_join_partial_failure_witness :
    (joinPipeline (Except.error "boom") (Except.ok ())).2 = Except.ok () ∧
    ("Processor failed: " ++ "boom") ∈
      (joinPipeline (Except.error "boom") (Except.ok ())).1 :=
  ⟨(c7_join_partial_failure (Except.error "boom") (Except.ok ())).1,
    (c7_join_partial_failure (Except.error "boom") (Except.ok ())).2.1
      "boom" rfl⟩

/-- C9: sync-from-state never validates the resolved start block against
`end_block`: when the resumed cursor exceeds `end_block + 1`, the
initialization still succeeds (no ConfigError), the progress-length
expression `end_block - start_block + 1` underflows under checked `u64`
arithmetic, and the reader loop sends no windows (and panics nowhere:
its guard is false immediately). -/
theorem c9_no_start_end_validation (S : Type) (genesis : S)
    (fetch : Chain → Except Unit (List SpotToken))
    (readAbci readEvm : String → Except Unit (Nat × S))
    (fln : String) (toks : List SpotToken) (startB endB : Nat) (st : S)
    (hf : fetch Chain.Mainnet = Except.ok toks)
    (hr : readAbci fln = Except.ok (startB, st))
    (hgt : endB + 1 < startB) :
    (runFromStateInit S genesis fetch readAbci readEvm
        Chain.Mainnet (some fln) true).2 = Except.ok (startB, st) ∧
    progressLen startB endB = none ∧
    readerWindows READ_LIMIT startB endB = some [] := by
  refine ⟨?_, ?_, ?_⟩
  · rw [runFromStateInit_some_eq S genesis fetch readAbci readEvm
        Chain.Mainnet fln true toks startB st hf (by simpa using hr)]
    rfl
  · have hn : ¬ startB ≤ endB := by omega
    simp [progressLen, u64CheckedSub, hn]
  · rw [readerWindows]
    have h0 : endB + 1 - startB = 0 := by omega
    rw [h0]
    rfl

/-- Witness for C9: a cursor of 10 with `end_block = 5`. -/
theorem c9_no_start_end_validation_witness :
    (5 : Nat) + 1 < 10 ∧
    (runFromStateInit Unit () (fun _ => Except.ok [])
        (fun _ => Except.ok (10, ())) (fun _ => Except.ok (10, ()))
        Chain.Mainnet (some "state.rmp") true).2 = Except.ok (10, ()) ∧
    progressLen 10 5 = none ∧
    readerWindows READ_LIMIT 10 5 = some [] :=
  ⟨by decide,
    (c9_no_start_end_validation Unit () (fun _ => Except.ok [])
        (fun _ => Except.ok (10, ())) (fun _ => Except.ok (10, ()))
        "state.rmp" [] 10 5 () rfl rfl (by decide)).1,
    (c9_no_start_end_validation Unit () (fun _ => Except.ok [])
        (fun _ => Except.ok (10, ())) (fun _ => Except.ok (10, ()))
        "state.rmp" [] 10 5 () rfl rfl (by decide)).2.1,
    (c9_no_start_end_validation Unit () (fun _ => Except.ok [])
        (fun _ => Except.ok (10, ())) (fun _ => Except.ok (10, ()))
        "state.rmp" [] 10 5 () rfl rfl (by decide)).2.2⟩

/-- C10: when both file arguments are supplied, the abci state file takes
precedence: the cursor read from the abci file is printed, the evm file is
never read (the effect trace contains only the abci read, and the result
does not depend on the evm oracle), and the command succeeds. -/
theorem c10_abci_precedence (readAbci readEvm : String → Except Unit Nat)
    (abciFln evmFln : String) (n : Nat)
    (h : readAbci abciFln = Except.ok n) :
    nextBlockNumber readAbci readEvm (some abciFln) (some evmFln) =
      ([Effect.readAbciState abciFln], Except.ok n) := by
  simp [nextBlockNumber, h]

/-- Witness for C10 with concrete oracles and files. -/
theorem c10_abci_precedence_witness :
    (fun _ : String => (Except.ok 7 : Except Unit Nat)) "a" = Except.ok 7 ∧
    nextBlockNumber (fun _ => Except.ok 7) (fun _ => Except.ok 9)
        (some "a") (some "e") =
      ([Effect.readAbciState "a"], Except.ok 7) :=
  ⟨rfl, c10_abci_precedence _ _ "a" "e" 7 rfl⟩

end HyperEvmSync
